import Mathlib

/-!
# Verification of the EVM → Solana CCTP bridge pipeline

Shallow embedding of the manual CCTP completion flow implemented in
`src/evm-to-solana.ts` (the complete variant): burn USDC on the source EVM
chain, poll Circle's attestation service, build the Solana `receiveMessage`
transaction, and submit it to the Fordefi API.

External collaborators (chain RPC clients, the Fordefi provider, the
attestation HTTP service, keccak256, bs58, base64/transaction serialization)
are modelled as explicit inputs: environments record what the chain reads
return, an oracle function records what each poll attempt returns, and
`keccak` / `serialize` are abstract function parameters.  Every effectful
step the script performs (approve, depositForBurn, poll query, API
submission) is recorded in an explicit trace so that ordering and counting
claims can be stated.
-/

namespace CctpBridge

/-! ## Configuration constants (from `config.ts`) -/

/-- V2 TokenMessenger contract address on Arbitrum (`TOKEN_MESSENGER`). -/
def TOKEN_MESSENGER : String := "0x28b5a0e9C621a5BadaA536219b3a228C8168cf5d"

/-- USDC contract address on Arbitrum (`ARBITRUM_USDC`). -/
def ARBITRUM_USDC : String := "0xaf88d065e77c8cC2239327C5EDb3A432268e5831"

/-- CCTP domain id of Solana (`SOLANA_DOMAIN`). -/
def SOLANA_DOMAIN : Nat := 5

/-- CCTP domain id of Arbitrum (`ARBITRUM_DOMAIN`). -/
def ARBITRUM_DOMAIN : Nat := 3

/-- SPL token program id (`TOKEN_PROGRAM_ID` from `@solana/spl-token`). -/
def TOKEN_PROGRAM_ID : String := "TokenkegQfeZyiNwAJbNbGKPFXCWuBvf9Ss623VQ5DA"

/-- `bridgeConfigSolana.fordefiVaultId`. -/
def fordefiVaultId : String := "9597e08a-32a8-4f96-a043-a3e7f1675f8d"

/-- `bridgeConfigSolana.solanaRecipientAddress`. -/
def solanaRecipientAddress : String := "CtvSEG7ph7SQumMtbnSKtDTLoUQoy8bxPUcjwvmNgGim"

/-- `destinationCaller = "0x" + "0".repeat(64)` in `burnUsdcOnEthereum`. -/
def destinationCaller : String :=
  "0x0000000000000000000000000000000000000000000000000000000000000000"

/-! ## JavaScript string / binary primitives -/

/-- Value of one hexadecimal digit character, `none` for a non-hex char. -/
def hexDigitVal (c : Char) : Option Nat :=
  if 48 ≤ c.toNat ∧ c.toNat ≤ 57 then some (c.toNat - 48)
  else if 97 ≤ c.toNat ∧ c.toNat ≤ 102 then some (c.toNat - 87)
  else if 65 ≤ c.toNat ∧ c.toNat ≤ 70 then some (c.toNat - 55)
  else none

/-- `s.slice(a, b)` on a JavaScript string, for non-negative indices:
take the characters from position `a` (inclusive) to `b` (exclusive),
clamped to the string's length; empty when `b ≤ a`. -/
def jsSlice (s : String) (a b : Nat) : String :=
  String.mk ((s.toList.drop a).take (b - a))

/-- `s.startsWith(p)` on JavaScript strings. -/
def jsStartsWith (s p : String) : Bool :=
  s.toList.take p.toList.length == p.toList

/-- Numeric value of the longest hex-digit run at the head of the list,
`none` when it is empty (JavaScript `parseInt` returns `NaN` then). -/
def takeHexVal (l : List Char) : Option Nat :=
  let ds := l.takeWhile (fun c => (hexDigitVal c).isSome)
  if ds.isEmpty then none
  else some (ds.foldl (fun acc c => 16 * acc + (hexDigitVal c).getD 0) 0)

/-- `parseInt(s, 16)`: an optional `0x`/`0X` prefix followed by the longest
run of hex digits; `none` models `NaN`.  (Leading whitespace and sign,
irrelevant to event-data slices, are not modelled.) -/
def jsParseIntHex (s : String) : Option Nat :=
  match s.toList with
  | '0' :: 'x' :: rest => takeHexVal rest
  | '0' :: 'X' :: rest => takeHexVal rest
  | l => takeHexVal l

/-- `Buffer.from(hexChars, "hex")`: decode hex-digit pairs from the front,
stopping at the first invalid or incomplete pair. -/
def bufferFromHexList : List Char → List Nat
  | c1 :: c2 :: rest =>
    match hexDigitVal c1, hexDigitVal c2 with
    | some h, some l => (16 * h + l) :: bufferFromHexList rest
    | _, _ => []
  | _ => []

/-- `Buffer.from(s, "hex")` on a string. -/
def bufferFromHex (s : String) : List Nat :=
  bufferFromHexList s.toList

/-- `s.replace("0x", "")`: remove the first occurrence of `"0x"`. -/
def removeFirst0x : List Char → List Char
  | '0' :: 'x' :: rest => rest
  | c :: rest => c :: removeFirst0x rest
  | [] => []

/-- `s.replace("0x", "")` on a string. -/
def jsRemove0x (s : String) : String :=
  String.mk (removeFirst0x s.toList)

/-- Byte content of a hex string for hashing (`keccak256(0x…)` in viem
hashes the bytes the hex string denotes). -/
def hexToBytes (s : String) : List Nat :=
  bufferFromHexList (removeFirst0x s.toList)

/-- Byte content of an ASCII string (`Buffer.from(text)`). -/
def asciiBytes (s : String) : List Nat :=
  s.toList.map Char.toNat

/-! ## Attestation poller (`waitForAttestation`) -/

/-- One entry of the attestation service's `messages` array.  The
`attestation` field is `none` when absent from the JSON (JavaScript
`undefined`). -/
structure AttEntry where
  message : String
  attestation : Option String
deriving DecidableEq, Repr

/-- Outcome of one `fetch` of the attestation URL: the fetch throws, the
response is not `ok`, or it is `ok` with a `messages` array (an absent
`messages` field behaves exactly like an empty array and is subsumed by
`okJson []`). -/
inductive FetchResult where
  | netError : FetchResult
  | notOk : FetchResult
  | okJson : List AttEntry → FetchResult
deriving DecidableEq, Repr

/-- `isAttestationReady` from `waitForAttestation`: the JavaScript
truthiness test `messageData.attestation && messageData.attestation !==
"PENDING" && messageData.attestation.startsWith("0x")` on the possibly
absent `attestation` field. -/
def isAttestationReady : Option String → Bool
  | none => false
  | some s => !(s == "") && !(s == "PENDING") && jsStartsWith s "0x"

/-- What one loop iteration of `waitForAttestation` extracts from a fetch
outcome: `some (message, attestation)` exactly when the body has a first
entry whose attestation is ready (the code reads `data.messages[0]` only);
`none` means the iteration falls through to the next attempt. -/
def attemptResult : FetchResult → Option (String × String)
  | .okJson (e :: _) =>
    if isAttestationReady e.attestation then some (e.message, e.attestation.getD "")
    else none
  | _ => none

/-- Errors raised by the bridge pipeline, one constructor per `throw`
site relevant to the claims. -/
inductive BridgeError where
  | insufficientBalance : BridgeError
  | approvalFailed : BridgeError
  | allowanceStillInsufficient : BridgeError
  | missingMessageSentEvent : BridgeError
  | attestationTimeout : Nat → String → BridgeError
deriving DecidableEq, Repr

/-- `MAX_ATTEMPTS = isFastTransfer ? 60 : 240`. -/
def MAX_ATTEMPTS (isFast : Bool) : Nat :=
  if isFast then 60 else 240

/-- The polling loop of `waitForAttestation`, from iteration `i` with
`fuel` iterations left.  Each iteration performs exactly one query
(recorded in the returned count); a ready first entry returns immediately,
every other outcome—thrown fetch, non-ok response, empty body, not-ready
entry—falls through to the next iteration.  Exhausting the fuel yields the
timeout error. -/
def pollFrom (oracle : Nat → FetchResult) (err : BridgeError) :
    Nat → Nat → Except BridgeError (String × String) × Nat
  | _, 0 => (.error err, 0)
  | i, fuel + 1 =>
    match attemptResult (oracle i) with
    | some r => (.ok r, 1)
    | none =>
      let rest := pollFrom oracle err (i + 1) fuel
      (rest.1, rest.2 + 1)

/-- `waitForAttestation(txHash)`: poll the oracle up to `MAX_ATTEMPTS`
times; on exhaustion fail with the attestation-timeout error carrying the
mode's timeout in minutes and the transaction hash.  Also returns the
number of queries performed. -/
def waitForAttestation (isFast : Bool) (oracle : Nat → FetchResult)
    (txHash : String) : Except BridgeError (String × String) × Nat :=
  pollFrom oracle (.attestationTimeout (if isFast then 5 else 20) txHash) 0
    (MAX_ATTEMPTS isFast)

/-! ## Burn initiator (`burnUsdcOnEthereum`) -/

/-- An EVM event log entry of the burn transaction's receipt: its topics
and its `data` hex string (`""` models a missing/empty `data` field, which
is falsy in JavaScript). -/
structure EthLog where
  topics : List String
  data : String
deriving DecidableEq, Repr

/-- Everything the chain and the signing provider answer during one run of
`burnUsdcOnEthereum`: the two `readContract` results, the approval
receipt's status, the allowance re-read after approval, the burn
transaction's hash and receipt logs, and the bs58-derived 32-byte mint
recipient (computed by the external `bs58` library from the configured
Solana address). -/
structure BurnEnv where
  usdcBalance : Nat
  currentAllowance : Nat
  approveSucceeds : Bool
  newAllowance : Nat
  mintRecipient : String
  burnTxHash : String
  burnLogs : List EthLog
deriving DecidableEq, Repr

/-- A transaction the script submits to the source chain, with the call
arguments the script encodes. -/
inductive ChainAction where
  | approve : (spender : String) → (amount : Nat) → ChainAction
  | depositForBurn : (amount : Nat) → (destinationDomain : Nat) →
      (mintRecipient : String) → (burnToken : String) →
      (theCaller : String) → (maxFee : Nat) →
      (minFinalityThreshold : Nat) → ChainAction
deriving DecidableEq, Repr

/-- Result record of `burnUsdcOnEthereum`. -/
structure BurnResult where
  txHash : String
  message : String
  messageHash : String
deriving DecidableEq, Repr

/-- Message extraction from the `MessageSent` event's data
(`burnUsdcOnEthereum`, after the receipt is confirmed):
`lengthHex = eventData.slice(66, 130)`, `messageLength =
parseInt(lengthHex, 16)`, `message = "0x" + eventData.slice(130, 130 +
messageLength * 2)`.  When `parseInt` yields `NaN`, `130 + NaN * 2` is
`NaN` and `slice(130, NaN)` is empty, so the message is `"0x"`. -/
def extractMessageHex (eventData : String) : String :=
  let lengthHex := jsSlice eventData 66 130
  match jsParseIntHex lengthHex with
  | none => "0x" ++ jsSlice eventData 130 130
  | some n => "0x" ++ jsSlice eventData 130 (130 + n * 2)

/-- Message extraction together with its keccak256 hash, exactly as
`burnUsdcOnEthereum` returns them (`messageHash = keccak256(message)`). -/
def extractWithHash (keccak : List Nat → String) (eventData : String) :
    String × String :=
  let message := extractMessageHex eventData
  (message, keccak (hexToBytes message))

/-- The predicate `log.topics[0] === messageSentEventSignature` used by
`receipt.logs.find`. -/
def matchesMessageSent (sig : String) (log : EthLog) : Bool :=
  log.topics.head? == some sig

/-- Tail of `burnUsdcOnEthereum` after the balance and allowance gates:
compute the mode parameters, submit `depositForBurn`, locate the
`MessageSent(bytes)` event in the receipt and extract the message.  `acts`
carries the chain actions already submitted (the approval, when one was
needed). -/
def finishBurn (keccak : List Nat → String) (env : BurnEnv)
    (amountInSmallestUnit : Nat) (useFastTransfer : Bool)
    (acts : List ChainAction) :
    Except BridgeError BurnResult × List ChainAction :=
  let minFinalityThreshold := if useFastTransfer then 1000 else 2000
  let maxFee := if useFastTransfer then amountInSmallestUnit * 1 / 10000 else 0
  let acts := acts ++ [ChainAction.depositForBurn amountInSmallestUnit
    SOLANA_DOMAIN env.mintRecipient ARBITRUM_USDC destinationCaller
    maxFee minFinalityThreshold]
  let sig := keccak (asciiBytes "MessageSent(bytes)")
  match env.burnLogs.find? (matchesMessageSent sig) with
  | none => (.error .missingMessageSentEvent, acts)
  | some log =>
    if log.data = "" then (.error .missingMessageSentEvent, acts)
    else
      let r := extractWithHash keccak log.data
      (.ok { txHash := env.burnTxHash, message := r.1, messageHash := r.2 }, acts)

/-- `burnUsdcOnEthereum`: abort when the balance is below the requested
amount; when the current allowance is below it, submit an approval and
abort distinctly if the approval receipt is not a success or the re-read
allowance is still insufficient; then submit the burn and extract the
cross-chain message from the receipt's `MessageSent` event.  Returns the
result together with the ordered list of chain transactions submitted. -/
def burnUsdcOnEthereum (keccak : List Nat → String) (env : BurnEnv)
    (amountInSmallestUnit : Nat) (useFastTransfer : Bool) :
    Except BridgeError BurnResult × List ChainAction :=
  if env.usdcBalance < amountInSmallestUnit then
    (.error .insufficientBalance, [])
  else if env.currentAllowance < amountInSmallestUnit then
    let acts := [ChainAction.approve TOKEN_MESSENGER amountInSmallestUnit]
    if !env.approveSucceeds then (.error .approvalFailed, acts)
    else if env.newAllowance < amountInSmallestUnit then
      (.error .allowanceStillInsufficient, acts)
    else finishBurn keccak env amountInSmallestUnit useFastTransfer acts
  else finishBurn keccak env amountInSmallestUnit useFastTransfer []

/-- The `(minFinalityThreshold, maxFee)` pairs of the `depositForBurn`
calls in an action trace. -/
def depositParams (acts : List ChainAction) : List (Nat × Nat) :=
  acts.filterMap fun a =>
    match a with
    | .depositForBurn _ _ _ _ _ mf mft => some (mft, mf)
    | _ => none

/-- Number of `approve` calls in an action trace. -/
def countApprove (acts : List ChainAction) : Nat :=
  (acts.filter fun a => match a with | .approve _ _ => true | _ => false).length

/-- Number of `depositForBurn` calls in an action trace. -/
def countDeposit (acts : List ChainAction) : Nat :=
  (acts.filter fun a =>
    match a with | .depositForBurn _ _ _ _ _ _ _ => true | _ => false).length

/-! ## Destination transaction builder (`createSolanaReceiveMessageTx`) -/

/-- A Solana account meta, with the fields in the order the source writes
them: `{ isSigner, isWritable, pubkey }`. -/
structure AccountMeta where
  isSigner : Bool
  isWritable : Bool
  pubkey : String
deriving DecidableEq, Repr

/-- The program-derived addresses returned by `getReceiveMessagePdasV2`
(derived by the vendored Circle utility from the message nonce and the
configured programs; opaque inputs to this model), as the builder reads
them. -/
structure ReceivePdas where
  tokenMessengerAccount : String
  remoteTokenMessengerKey : String
  tokenMinterAccount : String
  localToken : String
  tokenPair : String
  feeRecipientTokenAccount : String
  custodyTokenAccount : String
  tokenMessengerEventAuthority : String
  messageTransmitterAccount : String
  usedNonce : String
deriving DecidableEq, Repr

/-- Argument record of the `receiveMessage` instruction: the hex-decoded
message and attestation bytes. -/
structure ReceiveMessageParams where
  message : List Nat
  attestation : List Nat
deriving DecidableEq, Repr

/-- The `receiveMessage` instruction the builder assembles: its payload,
its named accounts, and the ordered `remainingAccounts` list. -/
structure ReceiveInstruction where
  params : ReceiveMessageParams
  payer : String
  caller : String
  messageTransmitter : String
  usedNonce : String
  receiver : String
  remainingAccounts : List AccountMeta
deriving DecidableEq, Repr

/-- The unsigned versioned transaction message the builder serializes. -/
structure SolanaTxModel where
  payerKey : String
  recentBlockhash : String
  instructions : List ReceiveInstruction
deriving DecidableEq, Repr

/-- The `accountMetas` list of `createSolanaReceiveMessageTx`, in the
exact push order of the source with the exact signer/writable flags. -/
def buildAccountMetas (pdas : ReceivePdas) (userTokenAccount : String)
    (tmmProgramId : String) : List AccountMeta :=
  [ { isSigner := false, isWritable := false, pubkey := pdas.tokenMessengerAccount },
    { isSigner := false, isWritable := false, pubkey := pdas.remoteTokenMessengerKey },
    { isSigner := false, isWritable := true, pubkey := pdas.tokenMinterAccount },
    { isSigner := false, isWritable := true, pubkey := pdas.localToken },
    { isSigner := false, isWritable := false, pubkey := pdas.tokenPair },
    { isSigner := false, isWritable := true, pubkey := pdas.feeRecipientTokenAccount },
    { isSigner := false, isWritable := true, pubkey := userTokenAccount },
    { isSigner := false, isWritable := true, pubkey := pdas.custodyTokenAccount },
    { isSigner := false, isWritable := false, pubkey := TOKEN_PROGRAM_ID },
    { isSigner := false, isWritable := false, pubkey := pdas.tokenMessengerEventAuthority },
    { isSigner := false, isWritable := false, pubkey := tmmProgramId } ]

/-- `createSolanaReceiveMessageTx(message, attestation)`: build the single
`receiveMessage` instruction whose payload is
`Buffer.from(hex.replace("0x", ""), "hex")` of the message and of the
attestation, whose named accounts are the recipient (payer and caller),
the message-transmitter PDA, the used-nonce PDA and the receiving program,
and whose remaining accounts are `buildAccountMetas`; wrap it as the only
instruction of a versioned transaction paid by the recipient on a recent
blockhash.  `userTokenAccount` is the recipient's associated token account
(derived by the external SPL library) and `tmmProgramId` the token
messenger minter program id. -/
def createSolanaReceiveMessageTx (message attestation : String)
    (pdas : ReceivePdas) (userTokenAccount tmmProgramId blockhash : String) :
    SolanaTxModel :=
  { payerKey := solanaRecipientAddress
    recentBlockhash := blockhash
    instructions :=
      [ { params :=
            { message := bufferFromHex (jsRemove0x message)
              attestation := bufferFromHex (jsRemove0x attestation) }
          payer := solanaRecipientAddress
          caller := solanaRecipientAddress
          messageTransmitter := pdas.messageTransmitterAccount
          usedNonce := pdas.usedNonce
          receiver := tmmProgramId
          remainingAccounts := buildAccountMetas pdas userTokenAccount tmmProgramId } ] }

/-! ## Remote signer submitter (`submitToFordefiApi`) -/

/-- Four-bit value to a lowercase hex digit character. -/
def hexDigitChar (n : Nat) : Char :=
  if n < 10 then Char.ofNat (48 + n) else Char.ofNat (87 + n)

/-- `JSON.stringify` escaping of one character inside a JSON string
value. -/
def jsonEscapeChar (c : Char) : String :=
  if c = '"' then "\\\""
  else if c = '\\' then "\\\\"
  else if c = Char.ofNat 8 then "\\b"
  else if c = Char.ofNat 9 then "\\t"
  else if c = Char.ofNat 10 then "\\n"
  else if c = Char.ofNat 12 then "\\f"
  else if c = Char.ofNat 13 then "\\r"
  else if c.toNat < 32 then
    "\\u00" ++ String.mk [hexDigitChar (c.toNat / 16), hexDigitChar (c.toNat % 16)]
  else String.singleton c

/-- `JSON.stringify` escaping of a string value. -/
def jsonEscapeString (s : String) : String :=
  String.join (s.toList.map jsonEscapeChar)

/-- `JSON.stringify(fordefiApiPayload)`: the exact request body, with the
keys in the object literal's insertion order. -/
def fordefiRequestBody (base64SerializedTx : String) : String :=
  "\x7b\"vault_id\":\"" ++ jsonEscapeString fordefiVaultId ++
  "\",\"signer_type\":\"api_signer\",\"sign_mode\":\"auto\"," ++
  "\"type\":\"solana_transaction\",\"details\":\x7b" ++
  "\"type\":\"solana_serialized_transaction_message\"," ++
  "\"push_mode\":\"auto\",\"chain\":\"solana_mainnet\"," ++
  "\"data\":\"" ++ jsonEscapeString base64SerializedTx ++ "\"\x7d\x7d"

/-- The canonical string `submitToFordefiApi` signs:
`` `${"/api/v1/transactions"}|${timestamp}|${requestBody}` ``. -/
def submitPayload (timestamp : Nat) (requestBody : String) : String :=
  "/api/v1/transactions" ++ "|" ++ toString timestamp ++ "|" ++ requestBody

/-! ## Main pipeline (`main`) -/

/-- Observable outcome of one `main` run: the final result, the chain
transactions submitted, the number of attestation queries performed, the
canonical payloads submitted to the Fordefi API, and the receive
transaction that was built (when one was). -/
structure PipelineOut where
  outcome : Except BridgeError Unit
  chainActions : List ChainAction
  pollQueries : Nat
  submissions : List String
  builtTx : Option SolanaTxModel
deriving Repr

/-- `main`: run the burn, poll for the attestation of its transaction
hash, build the receive transaction from the burn-extracted `message` and
the polled `attestation` (the message echoed by the attestation service is
discarded by the destructuring `const { attestation } = ...`), serialize
it (abstract `serialize`, covering compilation to a v0 message and base64
encoding) and submit the canonical payload.  Any stage error stops the
run. -/
def mainPipeline (keccak : List Nat → String)
    (serialize : SolanaTxModel → String) (env : BurnEnv)
    (amountInSmallestUnit : Nat) (useFast : Bool)
    (oracle : Nat → FetchResult) (pdas : ReceivePdas)
    (userTokenAccount tmmProgramId blockhash : String)
    (timestamp : Nat) : PipelineOut :=
  match burnUsdcOnEthereum keccak env amountInSmallestUnit useFast with
  | (.error e, acts) =>
    { outcome := .error e, chainActions := acts, pollQueries := 0
      submissions := [], builtTx := none }
  | (.ok r, acts) =>
    match waitForAttestation useFast oracle env.burnTxHash with
    | (.error e, n) =>
      { outcome := .error e, chainActions := acts, pollQueries := n
        submissions := [], builtTx := none }
    | (.ok polled, n) =>
      let tx := createSolanaReceiveMessageTx r.message polled.2 pdas
        userTokenAccount tmmProgramId blockhash
      { outcome := .ok (), chainActions := acts, pollQueries := n
        submissions := [submitPayload timestamp (fordefiRequestBody (serialize tx))]
        builtTx := some tx }

/-! ## Helper lemmas -/

/-- A poll loop in which every attempt misses uses all its fuel and times
out, one query per unit of fuel. -/
theorem pollFrom_all_miss (oracle : Nat → FetchResult) (err : BridgeError)
    (h : ∀ j, attemptResult (oracle j) = none) :
    ∀ fuel i, pollFrom oracle err i fuel = (.error err, fuel) := by
  intro fuel
  induction fuel with
  | zero => intro i; rfl
  | succ n ih =>
    intro i
    simp [pollFrom, h i, ih (i + 1)]

/-- The chain-action trace of `finishBurn` is the incoming trace followed
by the `depositForBurn` call, whatever the event lookup finds. -/
theorem finishBurn_trace (keccak : List Nat → String) (env : BurnEnv)
    (amount : Nat) (fast : Bool) (acts : List ChainAction) :
    (finishBurn keccak env amount fast acts).2
      = acts ++ [ChainAction.depositForBurn amount SOLANA_DOMAIN
          env.mintRecipient ARBITRUM_USDC destinationCaller
          (if fast then amount * 1 / 10000 else 0)
          (if fast then 1000 else 2000)] := by
  simp only [finishBurn]
  rcases h : List.find? (matchesMessageSent (keccak (asciiBytes "MessageSent(bytes)")))
    env.burnLogs with _ | log
  · simp [h]
  · by_cases hd : log.data = "" <;> simp [h, hd]

/-- With sufficient balance and a passable allowance path, the burn run
reduces to `finishBurn` on the approval actions the allowance branch
submitted. -/
theorem burn_eq_finishBurn (keccak : List Nat → String) (env : BurnEnv)
    (amount : Nat) (fast : Bool) (hbal : amount ≤ env.usdcBalance)
    (hall : amount ≤ env.currentAllowance ∨
      (env.approveSucceeds = true ∧ amount ≤ env.newAllowance)) :
    burnUsdcOnEthereum keccak env amount fast
      = finishBurn keccak env amount fast
          (if env.currentAllowance < amount then
            [ChainAction.approve TOKEN_MESSENGER amount] else []) := by
  unfold burnUsdcOnEthereum
  rw [if_neg (Nat.not_lt.mpr hbal)]
  by_cases hc : env.currentAllowance < amount
  · rcases hall with h | ⟨ha, hn⟩
    · omega
    · rw [if_pos hc, ha, if_pos hc]
      simp [Nat.not_lt.mpr hn]
  · rw [if_neg hc, if_neg hc]

/-- With sufficient balance but insufficient current allowance, the burn
run submits the approval and then branches on the approval receipt and the
re-read allowance. -/
theorem burn_lt_allowance_shape (keccak : List Nat → String) (env : BurnEnv)
    (amount : Nat) (fast : Bool) (hbal : amount ≤ env.usdcBalance)
    (hc : env.currentAllowance < amount) :
    burnUsdcOnEthereum keccak env amount fast
      = (if env.approveSucceeds = false then
           (.error .approvalFailed, [ChainAction.approve TOKEN_MESSENGER amount])
         else if env.newAllowance < amount then
           (.error .allowanceStillInsufficient,
            [ChainAction.approve TOKEN_MESSENGER amount])
         else finishBurn keccak env amount fast
           [ChainAction.approve TOKEN_MESSENGER amount]) := by
  unfold burnUsdcOnEthereum
  rw [if_neg (Nat.not_lt.mpr hbal), if_pos hc]
  cases ha : env.approveSucceeds <;> simp [ha]

/-- `jsStartsWith · "0x"` is the two-character head test. -/
theorem jsStartsWith_0x_iff (s : String) :
    jsStartsWith s "0x" = true ↔ s.toList.take 2 = ['0', 'x'] := by
  simp [jsStartsWith, show ("0x").toList = ['0', 'x'] from rfl]

/-! ## Claims -/

/-- C1: a polled attestation entry is ready if and only if its signature
field is present and non-empty, differs from the sentinel `"PENDING"`, and
begins with `"0x"`; in particular `isAttestationReady` is false for a
`"PENDING"`, empty, absent, or wrongly-prefixed signature and true for
`"0xabc123"`, and a not-ready first entry makes the poll attempt fall
through to the next attempt (`attemptResult` is `none`) rather than
error. -/
theorem attestation_readiness_iff :
    ∀ a : Option String,
      (isAttestationReady a = true ↔
        ∃ s, a = some s ∧ s ≠ "" ∧ s ≠ "PENDING" ∧ s.toList.take 2 = ['0', 'x'])
      ∧ isAttestationReady (some "PENDING") = false
      ∧ isAttestationReady (some "") = false
      ∧ isAttestationReady none = false
      ∧ isAttestationReady (some "abc123") = false
      ∧ isAttestationReady (some "0xabc123") = true
      ∧ attemptResult (FetchResult.okJson [⟨"m", some "PENDING"⟩]) = none
      ∧ attemptResult (FetchResult.okJson [⟨"m", some ""⟩]) = none
      ∧ attemptResult (FetchResult.okJson [⟨"m", none⟩]) = none := by
  intro a
  refine ⟨?_, by decide, by decide, rfl, by decide, by decide, by decide, by decide, rfl⟩
  cases a with
  | none => simp [isAttestationReady]
  | some s =>
    simp only [isAttestationReady, Bool.and_eq_true, Bool.not_eq_true',
      beq_eq_false_iff_ne, ne_eq, Option.some.injEq]
    constructor
    · rintro ⟨⟨h1, h2⟩, h3⟩
      exact ⟨s, rfl, h1, h2, (jsStartsWith_0x_iff s).mp h3⟩
    · rintro ⟨t, ht, h1, h2, h3⟩
      obtain rfl := ht
      exact ⟨⟨h1, h2⟩, (jsStartsWith_0x_iff s).mpr h3⟩

/-- C2: when no attempt ever yields a ready attestation, the poller
performs exactly `MAX_ATTEMPTS` queries (60 in fast mode, 240 in standard
mode) and then fails with the attestation-timeout error, with no query
after the failure; thrown fetches, non-ok responses and empty bodies are
each swallowed as one elapsed attempt. -/
theorem attestation_poller_timeout_bound (isFast : Bool)
    (oracle : Nat → FetchResult) (txHash : String)
    (h : ∀ i, attemptResult (oracle i) = none) :
    waitForAttestation isFast oracle txHash
      = (.error (.attestationTimeout (if isFast then 5 else 20) txHash),
         MAX_ATTEMPTS isFast)
    ∧ MAX_ATTEMPTS true = 60 ∧ MAX_ATTEMPTS false = 240
    ∧ attemptResult FetchResult.netError = none
    ∧ attemptResult FetchResult.notOk = none
    ∧ attemptResult (FetchResult.okJson []) = none := by
  refine ⟨?_, rfl, rfl, rfl, rfl, rfl⟩
  unfold waitForAttestation
  exact pollFrom_all_miss oracle _ h (MAX_ATTEMPTS isFast) 0

/-- C2 witness: a fast-mode run against an oracle whose every fetch
throws performs exactly 60 queries and times out. -/
theorem attestation_poller_timeout_bound_witness :
    waitForAttestation true (fun _ => FetchResult.netError) "0xburn"
      = (.error (.attestationTimeout 5 "0xburn"), 60) :=
  (attestation_poller_timeout_bound true (fun _ => FetchResult.netError)
    "0xburn" (fun _ => rfl)).1

/-- C3: for a positive amount that passes the balance and allowance gates,
fast mode embeds `minFinalityThreshold = 1000` and `maxFee = amount * 1 /
10000` in the single `depositForBurn` call, and standard mode embeds
`minFinalityThreshold = 2000` and `maxFee = 0`. -/
theorem burn_mode_parameters (keccak : List Nat → String) (env : BurnEnv)
    (amount : Nat) (fast : Bool) (_hpos : 0 < amount)
    (hbal : amount ≤ env.usdcBalance)
    (hall : amount ≤ env.currentAllowance ∨
      (env.approveSucceeds = true ∧ amount ≤ env.newAllowance)) :
    (fast = true →
      depositParams (burnUsdcOnEthereum keccak env amount fast).2
        = [(1000, amount * 1 / 10000)])
    ∧ (fast = false →
      depositParams (burnUsdcOnEthereum keccak env amount fast).2
        = [(2000, 0)]) := by
  rw [burn_eq_finishBurn keccak env amount fast hbal hall, finishBurn_trace]
  by_cases hc : env.currentAllowance < amount <;>
    cases fast <;>
      simp [hc, depositParams]

/-- C3 witness: amount `100000` (0.1 USDC) in fast mode yields
`minFinalityThreshold = 1000` and `maxFee = 10`. -/
theorem burn_mode_parameters_witness :
    depositParams (burnUsdcOnEthereum (fun _ => "h")
      ⟨100000, 100000, true, 0, "mr", "0xtx", []⟩ 100000 true).2
      = [(1000, 10)] :=
  (burn_mode_parameters (fun _ => "h")
    ⟨100000, 100000, true, 0, "mr", "0xtx", []⟩ 100000 true
    (by decide) (by decide) (Or.inl (by decide))).1 rfl

/-- C4: for every message and attestation, the builder produces a single
receive instruction whose payload is the hex-decoded message and
attestation bytes and whose remaining-account list has exactly the 11
documented entries, in order, with the documented signer/writable
flags. -/
theorem receive_tx_account_list (message attestation : String)
    (pdas : ReceivePdas) (userTokenAccount tmmProgramId blockhash : String) :
    (createSolanaReceiveMessageTx message attestation pdas userTokenAccount
      tmmProgramId blockhash).instructions.length = 1
    ∧ (createSolanaReceiveMessageTx message attestation pdas userTokenAccount
        tmmProgramId blockhash).instructions.map (fun ins => ins.params.message)
      = [bufferFromHex (jsRemove0x message)]
    ∧ (createSolanaReceiveMessageTx message attestation pdas userTokenAccount
        tmmProgramId blockhash).instructions.map (fun ins => ins.params.attestation)
      = [bufferFromHex (jsRemove0x attestation)]
    ∧ (createSolanaReceiveMessageTx message attestation pdas userTokenAccount
        tmmProgramId blockhash).instructions.map (fun ins => ins.remainingAccounts)
      = [[ ⟨false, false, pdas.tokenMessengerAccount⟩,
           ⟨false, false, pdas.remoteTokenMessengerKey⟩,
           ⟨false, true, pdas.tokenMinterAccount⟩,
           ⟨false, true, pdas.localToken⟩,
           ⟨false, false, pdas.tokenPair⟩,
           ⟨false, true, pdas.feeRecipientTokenAccount⟩,
           ⟨false, true, userTokenAccount⟩,
           ⟨false, true, pdas.custodyTokenAccount⟩,
           ⟨false, false, TOKEN_PROGRAM_ID⟩,
           ⟨false, false, pdas.tokenMessengerEventAuthority⟩,
           ⟨false, false, tmmProgramId⟩ ]]
    ∧ (createSolanaReceiveMessageTx message attestation pdas userTokenAccount
        tmmProgramId blockhash).instructions.map (fun ins => ins.remainingAccounts.length)
      = [11] :=
  ⟨rfl, rfl, rfl, rfl, rfl⟩

/-- C5: with sufficient balance, an allowance below the required amount
causes exactly one approval submission, placed before the burn call, with
distinct aborts when the approval receipt fails or the re-read allowance
is still insufficient; an allowance at or above the required amount causes
no approval call. -/
theorem burn_allowance_gating (keccak : List Nat → String) (env : BurnEnv)
    (amount : Nat) (fast : Bool) (hbal : amount ≤ env.usdcBalance) :
    (env.currentAllowance < amount →
      countApprove (burnUsdcOnEthereum keccak env amount fast).2 = 1
      ∧ (burnUsdcOnEthereum keccak env amount fast).2.head?
          = some (ChainAction.approve TOKEN_MESSENGER amount)
      ∧ (env.approveSucceeds = false →
          burnUsdcOnEthereum keccak env amount fast
            = (.error .approvalFailed, [ChainAction.approve TOKEN_MESSENGER amount]))
      ∧ (env.approveSucceeds = true → env.newAllowance < amount →
          burnUsdcOnEthereum keccak env amount fast
            = (.error .allowanceStillInsufficient,
               [ChainAction.approve TOKEN_MESSENGER amount]))
      ∧ (env.approveSucceeds = true → amount ≤ env.newAllowance →
          (burnUsdcOnEthereum keccak env amount fast).2
            = [ChainAction.approve TOKEN_MESSENGER amount,
               ChainAction.depositForBurn amount SOLANA_DOMAIN env.mintRecipient
                 ARBITRUM_USDC destinationCaller
                 (if fast then amount * 1 / 10000 else 0)
                 (if fast then 1000 else 2000)]))
    ∧ (amount ≤ env.currentAllowance →
        countApprove (burnUsdcOnEthereum keccak env amount fast).2 = 0)
    ∧ BridgeError.approvalFailed ≠ BridgeError.allowanceStillInsufficient := by
  refine ⟨?_, ?_, by decide⟩
  · intro hc
    rw [burn_lt_allowance_shape keccak env amount fast hbal hc]
    by_cases ha : env.approveSucceeds = false
    · rw [if_pos ha]
      refine ⟨rfl, rfl, fun _ => rfl, fun h _ => ?_, fun h _ => ?_⟩
      · exact absurd h (by simp [ha])
      · exact absurd h (by simp [ha])
    · rw [if_neg ha]
      by_cases hn : env.newAllowance < amount
      · rw [if_pos hn]
        exact ⟨rfl, rfl, fun h => absurd h ha, fun _ _ => rfl,
          fun _ h2 => absurd hn (Nat.not_lt.mpr h2)⟩
      · rw [if_neg hn, finishBurn_trace]
        exact ⟨rfl, rfl, fun h => absurd h ha, fun _ h2 => absurd h2 hn, fun _ _ => rfl⟩
  · intro hge
    rw [burn_eq_finishBurn keccak env amount fast hbal (Or.inl hge),
      if_neg (Nat.not_lt.mpr hge), finishBurn_trace]
    rfl

/-- C5 witness: with balance 100, allowance 0 and a failing approval
receipt, a burn of 10 submits exactly the approval and aborts with the
approval-failure error. -/
theorem burn_allowance_gating_witness :
    burnUsdcOnEthereum (fun _ => "h") ⟨100, 0, false, 0, "mr", "0xtx", []⟩ 10 true
      = (.error .approvalFailed, [ChainAction.approve TOKEN_MESSENGER 10]) :=
  (((burn_allowance_gating (fun _ => "h") ⟨100, 0, false, 0, "mr", "0xtx", []⟩
    10 true (by decide)).1 (by decide)).2.2.1) rfl

/-- C6: with the balance and allowance gates passed, a burn receipt whose
log contains no entry with the `MessageSent(bytes)` topic makes the run
fail with the missing-burn-event error and the pipeline performs no poll
query, builds no transaction and submits nothing; when a matching entry
with non-empty data is present, the returned message is extracted from
that entry's data. -/
theorem burn_missing_event (keccak : List Nat → String)
    (serialize : SolanaTxModel → String) (env : BurnEnv) (amount : Nat)
    (fast : Bool) (oracle : Nat → FetchResult) (pdas : ReceivePdas)
    (userTokenAccount tmmProgramId blockhash : String) (timestamp : Nat)
    (hbal : amount ≤ env.usdcBalance)
    (hall : amount ≤ env.currentAllowance ∨
      (env.approveSucceeds = true ∧ amount ≤ env.newAllowance)) :
    ((∀ log ∈ env.burnLogs,
        matchesMessageSent (keccak (asciiBytes "MessageSent(bytes)")) log = false) →
      (burnUsdcOnEthereum keccak env amount fast).1
          = .error .missingMessageSentEvent
      ∧ mainPipeline keccak serialize env amount fast oracle pdas
          userTokenAccount tmmProgramId blockhash timestamp
        = { outcome := .error .missingMessageSentEvent,
            chainActions := (burnUsdcOnEthereum keccak env amount fast).2,
            pollQueries := 0, submissions := [], builtTx := none })
    ∧ (∀ log, List.find? (matchesMessageSent (keccak (asciiBytes "MessageSent(bytes)")))
          env.burnLogs = some log → log.data ≠ "" →
        (burnUsdcOnEthereum keccak env amount fast).1
          = .ok { txHash := env.burnTxHash,
                  message := extractMessageHex log.data,
                  messageHash := keccak (hexToBytes (extractMessageHex log.data)) }) := by
  constructor
  · intro hlogs
    have hfind : List.find? (matchesMessageSent (keccak (asciiBytes "MessageSent(bytes)")))
        env.burnLogs = none :=
      List.find?_eq_none.mpr (fun x hx => by simp [hlogs x hx])
    have herr : (burnUsdcOnEthereum keccak env amount fast).1
        = .error .missingMessageSentEvent := by
      rw [burn_eq_finishBurn keccak env amount fast hbal hall]
      simp [finishBurn, hfind]
    refine ⟨herr, ?_⟩
    rcases hB : burnUsdcOnEthereum keccak env amount fast with ⟨res, acts⟩
    have hres : res = .error .missingMessageSentEvent := by rw [hB] at herr; exact herr
    subst hres
    simp [mainPipeline, hB]
  · intro log hfind hdata
    rw [burn_eq_finishBurn keccak env amount fast hbal hall]
    simp [finishBurn, hfind, hdata, extractWithHash]

/-- C6 witness: with an empty burn log, the run fails with the
missing-burn-event error and the pipeline performs zero poll queries and
zero submissions. -/
theorem burn_missing_event_witness :
    (burnUsdcOnEthereum (fun _ => "h")
      ⟨100000, 100000, true, 0, "mr", "0xtx", []⟩ 100000 true).1
        = .error .missingMessageSentEvent
    ∧ mainPipeline (fun _ => "h") (fun _ => "S")
        ⟨100000, 100000, true, 0, "mr", "0xtx", []⟩ 100000 true
        (fun _ => FetchResult.netError) ⟨"a", "b", "c", "d", "e", "f", "g", "i", "j", "k"⟩
        "uta" "tmm" "bh" 1700000000000
      = { outcome := .error .missingMessageSentEvent,
          chainActions := (burnUsdcOnEthereum (fun _ => "h")
            ⟨100000, 100000, true, 0, "mr", "0xtx", []⟩ 100000 true).2,
          pollQueries := 0, submissions := [], builtTx := none } :=
  (burn_missing_event (fun _ => "h") (fun _ => "S")
    ⟨100000, 100000, true, 0, "mr", "0xtx", []⟩ 100000 true
    (fun _ => FetchResult.netError) ⟨"a", "b", "c", "d", "e", "f", "g", "i", "j", "k"⟩
    "uta" "tmm" "bh" 1700000000000 (by decide) (Or.inl (by decide))).1
    (by intro log h; exact absurd h (List.not_mem_nil log))

/-- C7: message extraction from a fixed event-log byte sequence is
deterministic — two runs on the same event data yield the same message and
hash — the message is the length-prefixed payload selected by the length
field at byte offset 66..130 of the event data, and the returned hash is
always the keccak256 hash of the returned message. -/
theorem message_extraction_deterministic (keccak : List Nat → String)
    (eventData : String) (r1 r2 : String × String)
    (h1 : r1 = extractWithHash keccak eventData)
    (h2 : r2 = extractWithHash keccak eventData) :
    r1 = r2
    ∧ r1.2 = keccak (hexToBytes r1.1)
    ∧ r1.1 = "0x" ++ jsSlice eventData 130
        (130 + ((jsParseIntHex (jsSlice eventData 66 130)).getD 0) * 2) := by
  subst h1; subst h2
  refine ⟨rfl, rfl, ?_⟩
  unfold extractWithHash extractMessageHex
  cases h : jsParseIntHex (jsSlice eventData 66 130) with
  | none => simp [h]
  | some n => simp [h]

/-- C7 witness: both runs of the extractor on the empty event data give
`("0x", hash)` with the hash recomputed from the message. -/
theorem message_extraction_deterministic_witness :
    extractWithHash (fun _ => "H") "" = extractWithHash (fun _ => "H") ""
    ∧ (extractWithHash (fun _ => "H") "").2
        = (fun _ => "H") (hexToBytes (extractWithHash (fun _ => "H") "").1)
    ∧ (extractWithHash (fun _ => "H") "").1
        = "0x" ++ jsSlice "" 130
            (130 + ((jsParseIntHex (jsSlice "" 66 130)).getD 0) * 2) :=
  message_extraction_deterministic (fun _ => "H") ""
    (extractWithHash (fun _ => "H") "") (extractWithHash (fun _ => "H") "") rfl rfl

/-- C8: for every timestamp and request body, the canonical string the
submitter signs is the endpoint path, the millisecond timestamp and the
JSON-serialized request body joined with `"|"` in that exact order; for a
concrete serialized transaction and timestamp, the full byte string is
spelled out. -/
theorem submitter_canonical_string (timestamp : Nat) (requestBody : String) :
    submitPayload timestamp requestBody
      = "/api/v1/transactions" ++ "|" ++ Nat.repr timestamp ++ "|" ++ requestBody
    ∧ submitPayload 1700000000000 (fordefiRequestBody "QUJD")
      = "/api/v1/transactions|1700000000000|\x7b\"vault_id\":\"9597e08a-32a8-4f96-a043-a3e7f1675f8d\",\"signer_type\":\"api_signer\",\"sign_mode\":\"auto\",\"type\":\"solana_transaction\",\"details\":\x7b\"type\":\"solana_serialized_transaction_message\",\"push_mode\":\"auto\",\"chain\":\"solana_mainnet\",\"data\":\"QUJD\"\x7d\x7d" :=
  ⟨rfl, by set_option maxRecDepth 10000 in decide⟩

/-- C9: a balance below the amount in smallest units fails the run with
the insufficient-balance error before any chain transaction, and a
`depositForBurn` submission can only occur when the balance is at least
the required amount. -/
theorem burn_balance_gating (keccak : List Nat → String) (env : BurnEnv)
    (amount : Nat) (fast : Bool) :
    (env.usdcBalance < amount →
      burnUsdcOnEthereum keccak env amount fast = (.error .insufficientBalance, []))
    ∧ (countDeposit (burnUsdcOnEthereum keccak env amount fast).2 ≠ 0 →
      amount ≤ env.usdcBalance) := by
  constructor
  · intro h
    unfold burnUsdcOnEthereum
    rw [if_pos h]
  · intro h
    by_contra hlt
    have hb : env.usdcBalance < amount := by omega
    apply h
    unfold burnUsdcOnEthereum at *
    rw [if_pos hb]
    rfl

/-- C9 witness: balance 5 against a required amount of 10 aborts with the
insufficient-balance error and an empty chain-action trace. -/
theorem burn_balance_gating_witness :
    burnUsdcOnEthereum (fun _ => "h") ⟨5, 0, true, 0, "mr", "0xtx", []⟩ 10 true
      = (.error .insufficientBalance, []) :=
  (burn_balance_gating (fun _ => "h") ⟨5, 0, true, 0, "mr", "0xtx", []⟩
    10 true).1 (by decide)

/-- The attestation component of a poll result. -/
def attSnd : Except BridgeError (String × String) → Except BridgeError String
  | .ok p => .ok p.2
  | .error e => .error e

/-- Two oracles whose attempts agree on the attestation component give
poll loops that agree on the attestation component and on the query
count. -/
theorem pollFrom_attSnd_congr (o1 o2 : Nat → FetchResult) (err : BridgeError)
    (h : ∀ j, (attemptResult (o1 j)).map Prod.snd
      = (attemptResult (o2 j)).map Prod.snd) :
    ∀ fuel i, attSnd (pollFrom o1 err i fuel).1 = attSnd (pollFrom o2 err i fuel).1
      ∧ (pollFrom o1 err i fuel).2 = (pollFrom o2 err i fuel).2 := by
  intro fuel
  induction fuel with
  | zero => intro i; exact ⟨rfl, rfl⟩
  | succ n ih =>
    intro i
    have hi := h i
    cases h1 : attemptResult (o1 i) with
    | none =>
      cases h2 : attemptResult (o2 i) with
      | none =>
        obtain ⟨ha, hb⟩ := ih (i + 1)
        simp only [pollFrom, h1, h2]
        constructor
        · exact ha
        · rw [hb]
      | some q => rw [h1, h2] at hi; simp at hi
    | some p =>
      cases h2 : attemptResult (o2 i) with
      | none => rw [h1, h2] at hi; simp at hi
      | some q =>
        rw [h1, h2] at hi
        simp only [Option.map_some', Option.some.injEq] at hi
        simp only [pollFrom, h1, h2]
        exact ⟨by simp [attSnd, hi], trivial⟩

/-- C10: the receive transaction is built from the burn-extracted message,
never from the message echoed by the attestation service — the pipeline's
entire observable output is unchanged when the echoed messages change (as
long as the attestation components agree), the poll attempt inspects only
the first entry of the `messages` array, and the built instruction's
message payload is exactly the hex-decoded burn message. -/
theorem pipeline_discards_echoed_message (keccak : List Nat → String)
    (serialize : SolanaTxModel → String) (env : BurnEnv) (amount : Nat)
    (fast : Bool) (o1 o2 : Nat → FetchResult) (pdas : ReceivePdas)
    (userTokenAccount tmmProgramId blockhash : String) (timestamp : Nat)
    (h : ∀ i, (attemptResult (o1 i)).map Prod.snd
      = (attemptResult (o2 i)).map Prod.snd) :
    mainPipeline keccak serialize env amount fast o1 pdas
        userTokenAccount tmmProgramId blockhash timestamp
      = mainPipeline keccak serialize env amount fast o2 pdas
        userTokenAccount tmmProgramId blockhash timestamp
    ∧ (∀ e rest1 rest2, attemptResult (FetchResult.okJson (e :: rest1))
        = attemptResult (FetchResult.okJson (e :: rest2)))
    ∧ (∀ res tx, (burnUsdcOnEthereum keccak env amount fast).1 = .ok res →
        (mainPipeline keccak serialize env amount fast o1 pdas
          userTokenAccount tmmProgramId blockhash timestamp).builtTx = some tx →
        tx.instructions.map (fun ins => ins.params.message)
          = [bufferFromHex (jsRemove0x res.message)]) := by
  refine ⟨?_, fun e rest1 rest2 => rfl, ?_⟩
  · rcases hB : burnUsdcOnEthereum keccak env amount fast with ⟨res, acts⟩
    cases res with
    | error e => simp [mainPipeline, hB]
    | ok r =>
      have hc := pollFrom_attSnd_congr o1 o2
        (.attestationTimeout (if fast then 5 else 20) env.burnTxHash) h
        (MAX_ATTEMPTS fast) 0
      rcases hp1 : pollFrom o1
          (.attestationTimeout (if fast then 5 else 20) env.burnTxHash) 0
          (MAX_ATTEMPTS fast) with ⟨res1, n1⟩
      rcases hp2 : pollFrom o2
          (.attestationTimeout (if fast then 5 else 20) env.burnTxHash) 0
          (MAX_ATTEMPTS fast) with ⟨res2, n2⟩
      rw [hp1, hp2] at hc
      obtain ⟨hcs, hcn⟩ := hc
      simp only at hcs hcn
      subst hcn
      cases res1 with
      | error e1 =>
        cases res2 with
        | error e2 =>
          simp only [attSnd, Except.error.injEq] at hcs
          subst hcs
          simp [mainPipeline, hB, waitForAttestation, hp1, hp2]
        | ok p2 => simp [attSnd] at hcs
      | ok p1 =>
        cases res2 with
        | error e2 => simp [attSnd] at hcs
        | ok p2 =>
          simp only [attSnd, Except.ok.injEq] at hcs
          simp [mainPipeline, hB, waitForAttestation, hp1, hp2, hcs]
  · intro res tx hres htx
    rcases hB : burnUsdcOnEthereum keccak env amount fast with ⟨res0, acts⟩
    rw [hB] at hres
    simp only at hres
    subst hres
    rcases hp1 : waitForAttestation fast o1 env.burnTxHash with ⟨res1, n1⟩
    cases res1 with
    | error e1 => simp [mainPipeline, hB, hp1] at htx
    | ok p1 =>
      simp only [mainPipeline, hB, hp1, Option.some.injEq] at htx
      subst htx
      rfl

/-- C10 witness: with the same ready attestation but different echoed
messages on every poll, the two pipeline runs produce identical observable
output. -/
theorem pipeline_discards_echoed_message_witness :
    mainPipeline (fun _ => "SIG") (fun _ => "S")
      ⟨100000, 100000, true, 0, "mr", "0xtx", [⟨["SIG"], "dd"⟩]⟩ 100000 true
      (fun _ => FetchResult.okJson [⟨"echoA", some "0xsig"⟩])
      ⟨"a", "b", "c", "d", "e", "f", "g", "i", "j", "k"⟩
      "uta" "tmm" "bh" 1700000000000
    = mainPipeline (fun _ => "SIG") (fun _ => "S")
      ⟨100000, 100000, true, 0, "mr", "0xtx", [⟨["SIG"], "dd"⟩]⟩ 100000 true
      (fun _ => FetchResult.okJson [⟨"echoB", some "0xsig"⟩])
      ⟨"a", "b", "c", "d", "e", "f", "g", "i", "j", "k"⟩
      "uta" "tmm" "bh" 1700000000000 :=
  (pipeline_discards_echoed_message (fun _ => "SIG") (fun _ => "S")
    ⟨100000, 100000, true, 0, "mr", "0xtx", [⟨["SIG"], "dd"⟩]⟩ 100000 true
    (fun _ => FetchResult.okJson [⟨"echoA", some "0xsig"⟩])
    (fun _ => FetchResult.okJson [⟨"echoB", some "0xsig"⟩])
    ⟨"a", "b", "c", "d", "e", "f", "g", "i", "j", "k"⟩
    "uta" "tmm" "bh" 1700000000000 (fun _ => rfl)).1

end CctpBridge
